import Mathlib

/-!
Shallow embedding of the `brightness` crate (src/src/windows.rs and
src/src/linux.rs) together with theorems settling the frozen claims about
its value normalizers, discovery/correlation pipeline and error handling.

Modelling conventions:
* Machine integers (u8/u16/u32/u64) are modelled as `ℕ`, with the wrapping or
  saturating behaviour of the source written out explicitly (`% 2 ^ 32`,
  saturating casts) wherever the source can overflow.
* The `f64` arithmetic of `DdcciBrightnessValues` acts only on values derived
  from u32 quantities (all exactly representable in `f64`); it is modelled by
  exact rational arithmetic with Rust's `f64::round` (round half away from
  zero) and the saturating `as u32` cast made explicit.  The division-by-zero
  case (`max == min`) is modelled by the exact values Rust produces there:
  `0.0 / 0.0 = NaN` casts to `0`, and `x / 0.0 = +∞` (for `x > 0`) casts to
  `u32::MAX`.
* OS calls (Windows enumeration APIs, `CreateFileW`, sysfs reads, the zbus
  round trip) are environmental; each is represented by an explicit result
  value threaded into the embedded function, so that the embedded control
  flow is exactly the source's.
-/

namespace Windows

/-- Largest value of the Rust `u32` type. -/
def u32Max : ℕ := 4294967295

/-- Rust `as u32` applied to the integral result of `f64::round`: negative
values saturate to `0`, values above `u32::MAX` saturate to `u32::MAX`. -/
def castU32 (z : ℤ) : ℕ := if z < 0 then 0 else min z.toNat u32Max

/-- Rust `f64::round`: round to the nearest integer, half-way cases away from
zero, modelled on exact rationals. -/
def rround (q : ℚ) : ℤ := if 0 ≤ q then ⌊q + 1 / 2⌋ else ⌈q - 1 / 2⌉

/-- Wrapping subtraction of two `u32` values (release-mode semantics of the
`-` operator in the source); both arguments are assumed `< 2 ^ 32`. -/
def wrapSub (a b : ℕ) : ℕ := (a + 2 ^ 32 - b) % 2 ^ 32

/-- The continuous DDC/CI brightness triple, src/src/windows.rs:470-475. -/
structure DdcciBrightnessValues where
  min : ℕ
  current : ℕ
  max : ℕ
deriving DecidableEq, Repr

/-- Embeds `DdcciBrightnessValues::get_current_percentage`
(src/src/windows.rs:478-482):
`(normalised_current / normalised_max * 100.0).round() as u32` on `f64`.
When `normalised_max = 0` the source divides by zero: `0.0 / 0.0 = NaN` casts
to `0`, and a positive numerator gives `+∞`, which casts to `u32::MAX`; the
first branch below spells out exactly those Rust cast semantics. -/
def DdcciBrightnessValues.get_current_percentage (v : DdcciBrightnessValues) : ℕ :=
  let normalised_max := wrapSub v.max v.min
  let normalised_current := wrapSub v.current v.min
  if normalised_max = 0 then
    if normalised_current = 0 then 0 else u32Max
  else
    castU32 (rround ((normalised_current : ℚ) / (normalised_max : ℚ) * 100))

/-- Embeds `DdcciBrightnessValues::percentage_to_current`
(src/src/windows.rs:484-489):
`(percentage as f64 / 100.0 * normalised_max).round() as u32 + self.min` on
`f64`, with the final u32 addition wrapping (release semantics).  When
`normalised_max = 0` the product is exactly `0.0` (a finite fraction times
zero), which is also what the rational model yields, so no extra case is
needed here. -/
def DdcciBrightnessValues.percentage_to_current (v : DdcciBrightnessValues)
    (percentage : ℕ) : ℕ :=
  let normalised_max := wrapSub v.max v.min
  let fraction : ℚ := (percentage : ℚ) / 100
  let normalised_current : ℚ := fraction * (normalised_max : ℚ)
  (castU32 (rround normalised_current) + v.min) % 2 ^ 32

/-- Distance key used by `IoctlSupportedBrightnessLevels::get_nearest`
(src/src/windows.rs:530): `(num as i64 - percentage as i64).abs()`.  Both
inputs are far below `i64` bounds (u8 level, u32 percentage), so the `i64`
arithmetic is exact. -/
def brightnessDist (percentage num : ℕ) : ℕ := ((num : ℤ) - (percentage : ℤ)).natAbs

/-- The supported discrete brightness levels, src/src/windows.rs:522-523;
each level is a u8 value from 0 to 100 read out of the IOCTL response
buffer. -/
structure IoctlSupportedBrightnessLevels where
  levels : List ℕ
deriving DecidableEq, Repr

/-- One step of the `Iterator::min_by_key` fold used by `get_nearest`: keep
the current minimum unless the new key is strictly smaller, so on equal keys
the earlier element wins (Rust's documented `min_by_key` tie rule). -/
def nearestStep (percentage : ℕ) (acc : Option ℕ) (num : ℕ) : Option ℕ :=
  match acc with
  | none => some num
  | some best =>
      if brightnessDist percentage num < brightnessDist percentage best then some num
      else some best

/-- Embeds `IoctlSupportedBrightnessLevels::get_nearest`
(src/src/windows.rs:526-532): minimise `(num as i64 - percentage as i64).abs()`
over the levels with `min_by_key` (first minimum wins), `unwrap_or(0)` on an
empty collection. -/
def IoctlSupportedBrightnessLevels.get_nearest (s : IoctlSupportedBrightnessLevels)
    (percentage : ℕ) : ℕ :=
  match s.levels.foldl (nearestStep percentage) none with
  | none => 0
  | some v => v

/-- Abstract Windows error code carried by `windows::core::Error`. -/
abbrev WinErr := ℕ

/-- Embeds the `SysError` enumeration of src/src/windows.rs:372-428.
Device names reaching the error constructors are the `wchar_to_string`
images of the raw UTF-16 buffers, kept here as code-unit lists. -/
inductive SysError where
  | enumDisplayMonitorsFailed (source : WinErr)
  | getDisplayConfigBufferSizesFailed (source : WinErr)
  | queryDisplayConfigFailed (source : WinErr)
  | displayConfigGetDeviceInfoFailed (source : WinErr)
  | getMonitorInfoFailed (source : WinErr)
  | getPhysicalMonitorsFailed (source : WinErr)
  | enumerationMismatch
  | deviceInfoMissing
  | openingMonitorDeviceInterfaceHandleFailed (device_name : List ℕ) (source : WinErr)
  | ioctlQuerySupportedBrightnessFailed (device_name : List ℕ) (source : WinErr)
  | ioctlQueryDisplayBrightnessFailed (device_name : List ℕ) (source : WinErr)
  | ioctlQueryDisplayBrightnessUnexpectedResponse (device_name : List ℕ)
  | gettingMonitorBrightnessFailed (device_name : List ℕ) (source : WinErr)
  | ioctlSetBrightnessFailed (device_name : List ℕ) (source : WinErr)
  | settingBrightnessFailed (device_name : List ℕ) (source : WinErr)
deriving DecidableEq, Repr

/-- Embeds `wchar_to_string` (src/src/windows.rs:464-468): truncate the wide
string at its first NUL code unit.  The lossy UTF-16 decoding into a Rust
`String` is a bijective renaming for the claims at hand, so the truncated
code-unit list itself stands for the decoded string. -/
def wchar_to_string (s : List ℕ) : List ℕ := s.takeWhile (fun x => x ≠ 0)

/-- Outcome of the `CreateFileW` call that
`get_file_handle_for_display_device` performs on a display device's DOS
device path (environmental data): a valid handle, the ERROR_ACCESS_DENIED
failure, or any other failure code. -/
inductive FileOpenResult where
  | opened (handle : ℕ)
  | accessDenied
  | failed (source : WinErr)
deriving DecidableEq, Repr

/-- The fields of a `DISPLAY_DEVICEW` record used by discovery
(src/src/windows.rs), with the raw UTF-16 buffers as code-unit lists, plus
the environmental outcome of opening its `DeviceID` path with `CreateFileW`. -/
structure DISPLAY_DEVICEW where
  DeviceName : List ℕ
  DeviceString : List ℕ
  DeviceID : List ℕ
  DeviceKey : List ℕ
  stateActive : Bool
  openResult : FileOpenResult
deriving DecidableEq, Repr

/-- The fields of `DISPLAYCONFIG_TARGET_DEVICE_NAME` that discovery consumes:
the output technology used to classify internal vs external monitors. -/
structure DISPLAYCONFIG_TARGET_DEVICE_NAME where
  monitorDevicePath : List ℕ
  outputTechnology : ℕ
deriving DecidableEq, Repr

/-- The device-info classification map built by `get_device_info_map`
(src/src/windows.rs:207-251), keyed by the raw `monitorDevicePath` /
`DeviceID` buffer. -/
def InfoMap := List ℕ → Option DISPLAYCONFIG_TARGET_DEVICE_NAME

/-- Embeds the `Brightness` device record of src/src/windows.rs:57-70. -/
structure Brightness where
  physical_monitor : ℕ
  file_handle : ℕ
  device_name : List ℕ
  device_description : List ℕ
  device_key : List ℕ
  device_path : List ℕ
  output_technology : ℕ
deriving DecidableEq, Repr

/-- Environmental data for one logical monitor handle during discovery: the
result of `get_physical_monitors_from_hmonitor` (whose two-step count/fill OS
interaction, each failure mapped to `SysError::GetPhysicalMonitorsFailed`, is
summarised by its returned value), the result of the `GetMonitorInfoW` call,
and the successful prefix of the `EnumDisplayDevicesW` loop in device-number
order (the loop stops at the first unsuccessful return). -/
structure HMonitorEnv where
  physicalMonitorsResult : Except SysError (List ℕ)
  monitorInfoResult : Except WinErr Unit
  enumDevices : List DISPLAY_DEVICEW

/-- Embeds `get_display_devices_from_hmonitor` (src/src/windows.rs:314-338):
fail with `GetMonitorInfoFailed` if `GetMonitorInfoW` fails, otherwise keep
the enumerated display devices whose state flags contain
`DISPLAY_DEVICE_ACTIVE`. -/
def get_display_devices_from_hmonitor (env : HMonitorEnv) :
    Except SysError (List DISPLAY_DEVICEW) :=
  match env.monitorInfoResult with
  | .error e => .error (SysError.getMonitorInfoFailed e)
  | .ok _ => .ok (env.enumDevices.filter (fun d => d.stateActive))

/-- Embeds `get_file_handle_for_display_device` (src/src/windows.rs:345-370):
`None` on ERROR_ACCESS_DENIED (expected skip for virtual devices),
`Some(Err(OpeningMonitorDeviceInterfaceHandleFailed))` on any other failure,
`Some(Ok(handle))` otherwise. -/
def get_file_handle_for_display_device (display_device : DISPLAY_DEVICEW) :
    Option (Except SysError ℕ) :=
  match display_device.openResult with
  | .accessDenied => none
  | .failed e =>
      some (.error (SysError.openingMonitorDeviceInterfaceHandleFailed
        (wchar_to_string display_device.DeviceName) e))
  | .opened h => some (.ok h)

/-- Embeds the body of the `filter_map` over one zipped
(physical monitor, display device) pair inside `brightness_devices`
(src/src/windows.rs:174-196): skip silently when the file handle is an
expected skip, surface handle-open errors, fail with `DeviceInfoMissing` when
the device path has no entry in the device-info map, and otherwise build the
`Brightness` record. -/
def pairToDevice (device_info_map : InfoMap) (physical_monitor : ℕ)
    (display_device : DISPLAY_DEVICEW) : Option (Except SysError Brightness) :=
  match get_file_handle_for_display_device display_device with
  | none => none
  | some (.error e) => some (.error e)
  | some (.ok file_handle) =>
      match device_info_map display_device.DeviceID with
      | none => some (.error SysError.deviceInfoMissing)
      | some info =>
          some (.ok
            { physical_monitor := physical_monitor
              file_handle := file_handle
              device_name := wchar_to_string display_device.DeviceName
              device_description := wchar_to_string display_device.DeviceString
              device_key := wchar_to_string display_device.DeviceKey
              device_path := wchar_to_string display_device.DeviceID
              output_technology := info.outputTechnology })

/-- Embeds the per-logical-monitor `flat_map` body of `brightness_devices`
(src/src/windows.rs:156-198): a failed physical-monitor or display-device
enumeration yields that single error; unequal list lengths yield the single
`EnumerationMismatch` error with no pairing at all; otherwise the two lists
are zipped positionally and processed pair by pair. -/
def processMonitor (device_info_map : InfoMap) (env : HMonitorEnv) :
    List (Except SysError Brightness) :=
  match env.physicalMonitorsResult with
  | .error e => [.error e]
  | .ok physical_monitors =>
      match get_display_devices_from_hmonitor env with
      | .error e => [.error e]
      | .ok display_devices =>
          if display_devices.length ≠ physical_monitors.length then
            [.error SysError.enumerationMismatch]
          else
            (physical_monitors.zip display_devices).filterMap
              (fun pd => pairToDevice device_info_map pd.1 pd.2)

/-- Embeds `brightness_devices` (src/src/windows.rs:144-202): a failure to
build the device-info map or to enumerate logical monitor handles is one
fatal error item; otherwise every logical handle is processed in order and
the per-handle item lists are concatenated. -/
def brightness_devices (device_info_map_result : Except SysError InfoMap)
    (hmonitors_result : Except SysError (List HMonitorEnv)) :
    List (Except SysError Brightness) :=
  match device_info_map_result with
  | .error e => [.error e]
  | .ok device_info_map =>
      match hmonitors_result with
      | .error e => [.error e]
      | .ok hmonitors => hmonitors.flatMap (processMonitor device_info_map)

end Windows

namespace Linux

/-- Abstract `std::io::Error` payload. -/
abbrev IoErr := ℕ

/-- The `SysError` of `crate::blocking::linux`.  That module is not under
src/; src/src/linux.rs names only its `ReadingBacklightDirFailed` variant,
so the remaining variants are collapsed into one abstract constructor. -/
inductive SysError where
  | readingBacklightDirFailed (source : IoErr)
  | other (source : IoErr)
deriving DecidableEq, Repr

/-- The zbus failure observed by `AsyncDeviceImpl::set`: the source only
distinguishes `zbus::Error::MethodError(..)` from every other variant, so the
other variants are collapsed into one abstract constructor. -/
inductive ZbusError where
  | methodError (info : ℕ)
  | other (info : ℕ)
deriving DecidableEq, Repr

/-- The `crate::Error` values produced by src/src/linux.rs:
`SettingBrightnessFailed { device, source }` built explicitly at lines 40-43
and 62-65, and the `?`-conversion of a blocking-module `SysError` (the
`From` impl lives in lib.rs, outside src/, and is kept abstract). -/
inductive Error where
  | settingBrightnessFailed (device : String) (source : ZbusError)
  | fromSys (e : SysError)
deriving DecidableEq, Repr

/-- Embeds `AsyncDeviceImpl::get` (src/src/linux.rs:22-31), parameterised by
the results of the two `read_value` calls (max first, then actual, as in the
source).  The concrete integer width of the readings lives in
`crate::blocking::linux` (not under src/); they are modelled as unbounded
naturals, which agrees with every candidate machine width on the sysfs value
ranges at issue. -/
def AsyncDeviceImpl.get (readMax readActual : Except SysError ℕ) : Except Error ℕ :=
  match readMax with
  | .error e => .error (Error.fromSys e)
  | .ok mx =>
      match readActual with
      | .error e => .error (Error.fromSys e)
      | .ok actual => .ok (if mx = 0 then 0 else actual * 100 / mx)

/-- Embeds the raw-value computation of `AsyncDeviceImpl::set`
(src/src/linux.rs:34-36): the `percentage.min(100)` clamp at the top of the
function followed by `(u64::from(percentage) * u64::from(max) / 100) as u32`.
The u64 product of two u32-range values cannot wrap; the final `as u32`
truncation is the explicit `% 2 ^ 32`. -/
def desired_value (percentage mx : ℕ) : ℕ := min percentage 100 * mx / 100 % 2 ^ 32

/-- Environmental data consumed by one `AsyncDeviceImpl::set` call: the
`read_value(Max)` result, the `zbus::Connection::system()` result, the
`SetBrightness` bus-method result, and the `set_value` direct-file fallback
(a function of the raw value it is asked to write). -/
structure SetEnv where
  readMaxResult : Except SysError ℕ
  busConnectResult : Except ZbusError Unit
  callMethodResult : Except ZbusError Unit
  fallbackWriteResult : ℕ → Except SysError Unit

/-- Embeds `AsyncDeviceImpl::set` (src/src/linux.rs:33-67).  The second
component of the result counts how many direct-file fallback writes were
attempted (the embedded control flow consults `fallbackWriteResult` exactly
in the `MethodError` branch, once, with the raw desired value). -/
def AsyncDeviceImpl.set (device : String) (env : SetEnv) (percentage : ℕ) :
    Except Error Unit × ℕ :=
  match env.readMaxResult with
  | .error e => (.error (Error.fromSys e), 0)
  | .ok mx =>
      match env.busConnectResult with
      | .error e => (.error (Error.settingBrightnessFailed device e), 0)
      | .ok _ =>
          match env.callMethodResult with
          | .ok _ => (.ok (), 0)
          | .error (.methodError _) =>
              match env.fallbackWriteResult (desired_value percentage mx) with
              | .ok _ => (.ok (), 1)
              | .error e => (.error (Error.fromSys e), 1)
          | .error (.other e) =>
              (.error (Error.settingBrightnessFailed device (ZbusError.other e)), 0)

/-- The device record of src/src/linux.rs:11-14. -/
structure AsyncDeviceImpl where
  device : String
deriving DecidableEq, Repr

/-- Environmental data for one `read_dir` entry of the backlight directory:
either the I/O error produced while iterating, or the entry's file name as
decoded by `OsString::into_string` (`none` when the name is not valid UTF-8)
together with the existence of the actual-value and max-value attribute
files. -/
structure DirEntryData where
  utf8Name : Option String
  hasActual : Bool
  hasMax : Bool
deriving DecidableEq, Repr

/-- Rust's `Result::transpose` on `Result<Option<T>, E>`. -/
def resultTranspose : Except SysError (Option AsyncDeviceImpl) →
    Option (Except SysError AsyncDeviceImpl)
  | .error e => some (.error e)
  | .ok none => none
  | .ok (some a) => some (.ok a)

/-- Embeds the per-entry closure of `brightness_devices`
(src/src/linux.rs:74-86): a failed directory entry becomes
`Err(ReadingBacklightDirFailed)`; otherwise the UTF-8-decoded file name is
mapped into a device and filtered by the presence of both value attributes;
`filter_map(Result::transpose)` then drops the `Ok(None)` outcomes. -/
def processEntry (entry : Except IoErr DirEntryData) :
    Option (Except SysError AsyncDeviceImpl) :=
  resultTranspose
    (match entry with
     | .error e => .error (SysError.readingBacklightDirFailed e)
     | .ok d =>
         .ok ((d.utf8Name.map (fun name => AsyncDeviceImpl.mk name)).filter
           (fun _ => d.hasActual && d.hasMax)))

/-- Embeds `brightness_devices` (src/src/linux.rs:70-93): a failure to read
the backlight directory at all is one fatal error item; otherwise the entries
are processed in order with `processEntry`. -/
def brightness_devices (dir : Except IoErr (List (Except IoErr DirEntryData))) :
    List (Except SysError AsyncDeviceImpl) :=
  match dir with
  | .error e => [.error (SysError.readingBacklightDirFailed e)]
  | .ok entries => entries.filterMap processEntry

end Linux

namespace Windows

/-- On nonnegative inputs, round-half-away-from-zero is floor after adding a
half. -/
theorem rround_of_nonneg {q : ℚ} (h : 0 ≤ q) : rround q = ⌊q + 1 / 2⌋ := if_pos h

/-- Rounding a nonnegative rational yields a nonnegative integer. -/
theorem rround_nonneg {q : ℚ} (h : 0 ≤ q) : 0 ≤ rround q := by
  rw [rround_of_nonneg h]
  exact Int.le_floor.2 (by push_cast; linarith)

/-- Rounding cannot climb above an integer upper bound of the input. -/
theorem rround_le_of_le {q : ℚ} {n : ℤ} (h0 : 0 ≤ q) (h : q ≤ (n : ℚ)) : rround q ≤ n := by
  rw [rround_of_nonneg h0, Int.floor_le_iff]
  linarith

/-- The rounding error of `rround` is at most one half. -/
theorem abs_rround_sub_le {q : ℚ} (h : 0 ≤ q) : |(rround q : ℚ) - q| ≤ 1 / 2 := by
  rw [rround_of_nonneg h, abs_le]
  have h1 := Int.floor_le (q + 1 / 2)
  have h2 := Int.sub_one_lt_floor (q + 1 / 2)
  constructor <;> linarith

/-- The saturating cast is the identity on in-range naturals. -/
theorem castU32_natCast {n : ℕ} (h : n ≤ u32Max) : castU32 (n : ℤ) = n := by
  unfold castU32
  rw [if_neg (by omega), Int.toNat_natCast]
  exact min_eq_left h

/-- The saturating cast of an in-range nonnegative integer is its `toNat`. -/
theorem castU32_eq_toNat {z : ℤ} (h0 : 0 ≤ z) (h : z ≤ (u32Max : ℤ)) :
    castU32 z = z.toNat := by
  unfold castU32
  rw [if_neg (by omega)]
  exact min_eq_left (by omega)

/-- Wrapping subtraction is genuine subtraction when no underflow occurs. -/
theorem wrapSub_eq {a b : ℕ} (hba : b ≤ a) (ha : a < 2 ^ 32) : wrapSub a b = a - b := by
  unfold wrapSub
  have h1 : a + 2 ^ 32 - b = (a - b) + 2 ^ 32 := by omega
  rw [h1, Nat.add_mod_right]
  exact Nat.mod_eq_of_lt (by omega)

/-- The rounded percentage fraction `round(c / M * 100)` as a natural-number
division, for `0 < M`. -/
theorem rround_div_formula (c M : ℕ) (hM : 0 < M) :
    rround ((c : ℚ) / (M : ℚ) * 100) = ((200 * c + M) / (2 * M) : ℕ) := by
  have hq : (0 : ℚ) ≤ (c : ℚ) / (M : ℚ) * 100 := by positivity
  rw [rround_of_nonneg hq]
  have hM0 : (M : ℚ) ≠ 0 := by exact_mod_cast hM.ne'
  have key : (c : ℚ) / (M : ℚ) * 100 + 1 / 2
      = ((200 * c + M : ℕ) : ℚ) / ((2 * M : ℕ) : ℚ) := by
    push_cast
    field_simp
    ring
  rw [key, Rat.floor_natCast_div_natCast]
  rfl

/-- The rounded raw value `round(p / 100 * M)` as a natural-number division. -/
theorem rround_mul_formula (p M : ℕ) :
    rround ((p : ℚ) / 100 * (M : ℚ)) = ((2 * p * M + 100) / 200 : ℕ) := by
  have hq : (0 : ℚ) ≤ (p : ℚ) / 100 * (M : ℚ) := by positivity
  rw [rround_of_nonneg hq]
  have key : (p : ℚ) / 100 * (M : ℚ) + 1 / 2
      = ((2 * p * M + 100 : ℕ) : ℚ) / ((200 : ℕ) : ℚ) := by
    push_cast
    field_simp
    ring
  rw [key, Rat.floor_natCast_div_natCast]
  push_cast
  rfl

/-- The percentage formula is bounded by 100 whenever `c ≤ M`. -/
theorem div_formula_le_100 {c M : ℕ} (hc : c ≤ M) (hM : 0 < M) :
    (200 * c + M) / (2 * M) ≤ 100 := by
  rw [Nat.div_le_iff_le_mul_add_pred (by omega)]
  omega

/-- Closed form of `get_current_percentage` on a valid continuous reading:
the natural-number division `(200 c + M) / (2 M)` with `M = max - min` and
`c = current - min`. -/
theorem get_current_percentage_eq_div (v : DdcciBrightnessValues)
    (h1 : v.min ≤ v.current) (h2 : v.current ≤ v.max) (h3 : v.min < v.max)
    (h4 : v.max < 2 ^ 32) :
    v.get_current_percentage
      = (200 * (v.current - v.min) + (v.max - v.min)) / (2 * (v.max - v.min)) := by
  have hM : 0 < v.max - v.min := by omega
  have hle := div_formula_le_100 (c := v.current - v.min) (M := v.max - v.min)
    (by omega) hM
  simp only [DdcciBrightnessValues.get_current_percentage]
  rw [wrapSub_eq (h1.trans h2) h4, wrapSub_eq h1 (lt_of_le_of_lt h2 h4),
    if_neg (by omega), rround_div_formula _ _ hM, castU32_natCast]
  exact hle.trans (by norm_num [u32Max])

/-- Closed form of `percentage_to_current` on a reading with
`min ≤ max < 2 ^ 32` and a percentage small enough that neither the
saturating cast nor the wrapping addition fires: the natural-number division
`(2 p M + 100) / 200 + min` with `M = max - min`. -/
theorem percentage_to_current_eq_div (v : DdcciBrightnessValues) (p : ℕ)
    (h1 : v.min ≤ v.max) (h4 : v.max < 2 ^ 32)
    (hfit : (2 * p * (v.max - v.min) + 100) / 200 + v.min < 2 ^ 32) :
    v.percentage_to_current p
      = (2 * p * (v.max - v.min) + 100) / 200 + v.min := by
  simp only [DdcciBrightnessValues.percentage_to_current]
  rw [wrapSub_eq h1 h4, rround_mul_formula, castU32_natCast (by
    have : u32Max = 2 ^ 32 - 1 := by norm_num [u32Max]
    omega)]
  exact Nat.mod_eq_of_lt hfit

end Windows

/-- C1: the claim says a continuous-scale reading with `max == min` makes get
and set return a failure; the code has no failure path there.  This theorem
evaluates the embedded code at such readings: `get_current_percentage` is
total and returns `0` when `current == min` (Rust's `0.0 / 0.0 = NaN` cast to
u32) and `u32::MAX` when `current > min` (`+∞` cast to u32), and
`percentage_to_current` succeeds returning `min`; no error is ever
produced. -/
theorem c1_zero_range_returns_values :
    Windows.DdcciBrightnessValues.get_current_percentage ⟨0, 0, 0⟩ = 0 ∧
    Windows.DdcciBrightnessValues.get_current_percentage ⟨5, 7, 5⟩ = Windows.u32Max ∧
    Windows.DdcciBrightnessValues.percentage_to_current ⟨5, 7, 5⟩ 50 = 5 := by
  refine ⟨by decide, by decide, ?_⟩
  rw [Windows.percentage_to_current_eq_div ⟨5, 7, 5⟩ 50 (by norm_num) (by norm_num)
    (by norm_num)]
  norm_num

/-- C9: for every continuous-scale triple with u32-ranged fields, `max > min`
and `current` in `[min, max]`, `get_current_percentage` returns a value in
`[0, 100]` (the lower bound is inherent to the `ℕ`-valued result; the upper
bound is proved). -/
theorem c9_get_current_percentage_in_range (v : Windows.DdcciBrightnessValues)
    (h1 : v.min ≤ v.current) (h2 : v.current ≤ v.max) (h3 : v.min < v.max)
    (h4 : v.max < 2 ^ 32) :
    v.get_current_percentage ≤ 100 := by
  rw [Windows.get_current_percentage_eq_div v h1 h2 h3 h4]
  exact Windows.div_formula_le_100 (by omega) (by omega)

/-- C9 witness: the range bound at the concrete reading (0, 50, 100). -/
theorem c9_witness :
    Windows.DdcciBrightnessValues.get_current_percentage ⟨0, 50, 100⟩ ≤ 100 :=
  c9_get_current_percentage_in_range ⟨0, 50, 100⟩ (by norm_num) (by norm_num)
    (by norm_num) (by norm_num)

/-- C3 counterexample: the reading (min 0, current 4, max 1000) satisfies the
claim's hypotheses (`max > min`, `current` in `[min, max]`), yet the
percentage round trip lands on 0, four away from the original current — the
±1 bound fails for wide ranges. -/
theorem c3_counterexample :
    (0 : ℕ) < 1000 ∧ (0 : ℕ) ≤ 4 ∧ (4 : ℕ) ≤ 1000 ∧
    Windows.DdcciBrightnessValues.percentage_to_current ⟨0, 4, 1000⟩
      (Windows.DdcciBrightnessValues.get_current_percentage ⟨0, 4, 1000⟩) = 0 ∧
    ¬ Nat.dist 0 4 ≤ 1 := by
  have hget : Windows.DdcciBrightnessValues.get_current_percentage ⟨0, 4, 1000⟩ = 0 := by
    rw [Windows.get_current_percentage_eq_div ⟨0, 4, 1000⟩ (by norm_num) (by norm_num)
      (by norm_num) (by norm_num)]
    norm_num
  rw [hget, Windows.percentage_to_current_eq_div ⟨0, 4, 1000⟩ 0 (by norm_num) (by norm_num)
    (by norm_num)]
  refine ⟨by norm_num, by norm_num, by norm_num, by norm_num, by decide⟩

/-- C3 (amended): for every continuous-scale triple with u32-ranged fields,
`max > min`, `max - min ≤ 100` and `current` in `[min, max]`, applying
`get_current_percentage` and then `percentage_to_current` yields a value
within 1 of the original current. -/
theorem c3_roundtrip_within_one (v : Windows.DdcciBrightnessValues)
    (h1 : v.min ≤ v.current) (h2 : v.current ≤ v.max) (h3 : v.min < v.max)
    (h4 : v.max < 2 ^ 32) (h5 : v.max - v.min ≤ 100) :
    Nat.dist (v.percentage_to_current v.get_current_percentage) v.current ≤ 1 := by
  have hM : 0 < v.max - v.min := by omega
  have hMq : (0 : ℚ) < ((v.max - v.min : ℕ) : ℚ) := by exact_mod_cast hM
  have hq1nn : (0 : ℚ) ≤ ((v.current - v.min : ℕ) : ℚ) / ((v.max - v.min : ℕ) : ℚ) * 100 := by
    positivity
  have hq1le : ((v.current - v.min : ℕ) : ℚ) / ((v.max - v.min : ℕ) : ℚ) * 100 ≤ 100 := by
    have hfr : ((v.current - v.min : ℕ) : ℚ) / ((v.max - v.min : ℕ) : ℚ) ≤ 1 :=
      (div_le_one hMq).2 (by exact_mod_cast (by omega : v.current - v.min ≤ v.max - v.min))
    nlinarith
  set q1 : ℚ := ((v.current - v.min : ℕ) : ℚ) / ((v.max - v.min : ℕ) : ℚ) * 100 with hq1def
  set p : ℤ := Windows.rround q1 with hpdef
  have hp0 : 0 ≤ p := Windows.rround_nonneg hq1nn
  have hp100 : p ≤ 100 := Windows.rround_le_of_le hq1nn (by exact_mod_cast hq1le)
  have hget : v.get_current_percentage = p.toNat := by
    simp only [Windows.DdcciBrightnessValues.get_current_percentage]
    rw [Windows.wrapSub_eq (h1.trans h2) h4, Windows.wrapSub_eq h1 (lt_of_le_of_lt h2 h4),
      if_neg (by omega)]
    exact Windows.castU32_eq_toNat hp0 (hp100.trans (by norm_num [Windows.u32Max]))
  have hpcast : ((p.toNat : ℕ) : ℚ) = (p : ℚ) := by
    exact_mod_cast congrArg (fun z : ℤ => (z : ℚ)) (Int.toNat_of_nonneg hp0)
  have hq2nn : (0 : ℚ) ≤ ((p.toNat : ℕ) : ℚ) / 100 * ((v.max - v.min : ℕ) : ℚ) := by
    positivity
  set q2 : ℚ := ((p.toNat : ℕ) : ℚ) / 100 * ((v.max - v.min : ℕ) : ℚ) with hq2def
  set r : ℤ := Windows.rround q2 with hrdef
  have hr0 : 0 ≤ r := Windows.rround_nonneg hq2nn
  have hq2leM : q2 ≤ ((v.max - v.min : ℕ) : ℚ) := by
    rw [hq2def, hpcast]
    have hfr : (p : ℚ) / 100 ≤ 1 := by
      rw [div_le_one (by norm_num)]
      exact_mod_cast hp100
    nlinarith
  have hrM : r ≤ ((v.max - v.min : ℕ) : ℤ) := by
    refine Windows.rround_le_of_le hq2nn ?_
    exact_mod_cast hq2leM
  have hset : v.percentage_to_current p.toNat = r.toNat + v.min := by
    simp only [Windows.DdcciBrightnessValues.percentage_to_current]
    rw [Windows.wrapSub_eq (by omega) h4, ← hq2def, ← hrdef,
      Windows.castU32_eq_toNat hr0 (le_trans hrM (by norm_num [Windows.u32Max]; omega))]
    exact Nat.mod_eq_of_lt (by omega)
  rw [hget, hset]
  have hpq1 : |(p : ℚ) - q1| ≤ 1 / 2 := Windows.abs_rround_sub_le hq1nn
  have hrq2 : |(r : ℚ) - q2| ≤ 1 / 2 := Windows.abs_rround_sub_le hq2nn
  have hq2c : q2 - ((v.current - v.min : ℕ) : ℚ)
      = ((v.max - v.min : ℕ) : ℚ) / 100 * ((p : ℚ) - q1) := by
    rw [hq2def, hq1def, hpcast]
    field_simp
    ring
  have habs2 : |q2 - ((v.current - v.min : ℕ) : ℚ)| ≤ ((v.max - v.min : ℕ) : ℚ) / 200 := by
    rw [hq2c, abs_mul, abs_of_nonneg (by positivity :
      (0 : ℚ) ≤ ((v.max - v.min : ℕ) : ℚ) / 100)]
    calc ((v.max - v.min : ℕ) : ℚ) / 100 * |(p : ℚ) - q1|
        ≤ ((v.max - v.min : ℕ) : ℚ) / 100 * (1 / 2) :=
          mul_le_mul_of_nonneg_left hpq1 (by positivity)
      _ = ((v.max - v.min : ℕ) : ℚ) / 200 := by ring
  have hMle : ((v.max - v.min : ℕ) : ℚ) ≤ 100 := by exact_mod_cast h5
  have htotal : |(r : ℚ) - ((v.current - v.min : ℕ) : ℚ)| ≤ 1 := by
    calc |(r : ℚ) - ((v.current - v.min : ℕ) : ℚ)|
        ≤ |(r : ℚ) - q2| + |q2 - ((v.current - v.min : ℕ) : ℚ)| := abs_sub_le _ _ _
      _ ≤ 1 / 2 + ((v.max - v.min : ℕ) : ℚ) / 200 := add_le_add hrq2 habs2
      _ ≤ 1 := by linarith
  have hZ : |r - ((v.current - v.min : ℕ) : ℤ)| ≤ 1 := by exact_mod_cast htotal
  have hZ2 := abs_le.1 hZ
  simp only [Nat.dist]
  omega

/-- C3 witness: the round trip at the concrete reading (0, 37, 100) stays
within 1. -/
theorem c3_witness :
    Nat.dist
      (Windows.DdcciBrightnessValues.percentage_to_current ⟨0, 37, 100⟩
        (Windows.DdcciBrightnessValues.get_current_percentage ⟨0, 37, 100⟩)) 37 ≤ 1 :=
  c3_roundtrip_within_one ⟨0, 37, 100⟩ (by norm_num) (by norm_num) (by norm_num)
    (by norm_num) (by norm_num)

/-- C4 counterexample: on the continuous DDC/CI set path the input percentage
200 is converted without any clamp — `percentage_to_current` on the reading
(min 0, current 50, max 100) yields the raw value 200, strictly above the
backend maximum 100, so the claim's DDC/CI half is false. -/
theorem c4_counterexample :
    Windows.DdcciBrightnessValues.percentage_to_current ⟨0, 50, 100⟩ 200 = 200 ∧
    (⟨0, 50, 100⟩ : Windows.DdcciBrightnessValues).max < 200 := by
  refine ⟨?_, by norm_num⟩
  rw [Windows.percentage_to_current_eq_div ⟨0, 50, 100⟩ 200 (by norm_num) (by norm_num)
    (by norm_num)]
  norm_num

/-- C4 (amended): for every input percentage greater than 100, the kernel
single-scale set path clamps it to 100 before converting, so the raw value it
writes never exceeds the backend maximum; the continuous DDC/CI path performs
no such clamp (see the counterexample). -/
theorem c4_linux_set_clamps (p mx : ℕ) (hp : 100 < p) :
    Linux.desired_value p mx ≤ mx ∧ Linux.desired_value p mx = Linux.desired_value 100 mx := by
  unfold Linux.desired_value
  constructor
  · have hmul : min p 100 * mx ≤ 100 * mx := Nat.mul_le_mul_right _ (min_le_right _ _)
    have hdiv : min p 100 * mx / 100 ≤ mx :=
      le_trans (Nat.div_le_div_right hmul) (by omega)
    exact le_trans (Nat.mod_le _ _) hdiv
  · rw [min_eq_right hp.le, min_self]

/-- C4 witness: percentage 200 on a device with max 255 is clamped and the
raw value stays within the maximum. -/
theorem c4_witness :
    Linux.desired_value 200 255 ≤ 255 ∧
    Linux.desired_value 200 255 = Linux.desired_value 100 255 :=
  c4_linux_set_clamps 200 255 (by norm_num)

/-- Invariant of the `min_by_key` fold behind `get_nearest`: starting from a
seed `b`, the fold returns an element `r` of `b :: l` such that every element
strictly before `r` has strictly larger distance (first minimum wins) and
every element after `r` has distance at least that of `r`. -/
theorem foldl_nearestStep_spec (p : ℕ) :
    ∀ (l : List ℕ) (b : ℕ), ∃ (r : ℕ) (l1 l2 : List ℕ),
      l.foldl (Windows.nearestStep p) (some b) = some r ∧
      b :: l = l1 ++ r :: l2 ∧
      (∀ x ∈ l1, Windows.brightnessDist p r < Windows.brightnessDist p x) ∧
      (∀ x ∈ l2, Windows.brightnessDist p r ≤ Windows.brightnessDist p x) ∧
      Windows.brightnessDist p r ≤ Windows.brightnessDist p b := by
  intro l
  induction l with
  | nil => exact fun b => ⟨b, [], [], rfl, rfl, by simp, by simp, le_refl _⟩
  | cons x xs ih =>
    intro b
    by_cases hx : Windows.brightnessDist p x < Windows.brightnessDist p b
    · have hstep : Windows.nearestStep p (some b) x = some x := by
        simp [Windows.nearestStep, hx]
      obtain ⟨r, l1, l2, hfold, hdecomp, hl1, hl2, hrb⟩ := ih x
      have hrx : Windows.brightnessDist p r < Windows.brightnessDist p b :=
        lt_of_le_of_lt hrb hx
      refine ⟨r, b :: l1, l2, ?_, ?_, ?_, hl2, hrx.le⟩
      · rw [List.foldl_cons, hstep]
        exact hfold
      · rw [List.cons_append, ← hdecomp]
      · intro y hy
        rcases List.mem_cons.1 hy with h | h
        · exact h ▸ hrx
        · exact hl1 y h
    · have hstep : Windows.nearestStep p (some b) x = some b := by
        simp [Windows.nearestStep, hx]
      obtain ⟨r, l1, l2, hfold, hdecomp, hl1, hl2, hrb⟩ := ih b
      cases l1 with
      | nil =>
        simp only [List.nil_append, List.cons.injEq] at hdecomp
        obtain ⟨hbr, hxl⟩ := hdecomp
        refine ⟨r, [], x :: l2, ?_, ?_, by simp, ?_, hrb⟩
        · rw [List.foldl_cons, hstep]
          exact hfold
        · rw [List.nil_append, ← hbr, hxl]
        · intro y hy
          rcases List.mem_cons.1 hy with h | h
          · subst h
            rw [← hbr] at hrb ⊢
            exact hrb.trans (not_lt.1 hx)
          · exact hl2 y h
      | cons hd t =>
        rw [List.cons_append, List.cons.injEq] at hdecomp
        obtain ⟨hbhd, hxs⟩ := hdecomp
        have hrlt : Windows.brightnessDist p r < Windows.brightnessDist p b :=
          hl1 hd (List.mem_cons_self hd t) |>.trans_le (le_of_eq (by rw [hbhd]))
      -- distance to hd equals distance to b since hd = b
        refine ⟨r, b :: x :: t, l2, ?_, ?_, ?_, hl2, hrlt.le⟩
        · rw [List.foldl_cons, hstep]
          exact hfold
        · rw [hxs]
          simp
        · intro y hy
          rcases List.mem_cons.1 hy with h | h
          · exact h ▸ hrlt
          · rcases List.mem_cons.1 h with h2 | h2
            · exact h2 ▸ (hrlt.trans_le (not_lt.1 hx))
            · exact hl1 y (List.mem_cons_of_mem hd h2)

/-- C5: `get_nearest` returns 0 on the empty level collection; on a non-empty
collection it returns a member attaining the minimal absolute distance to the
requested percentage, and every level listed before the returned one has
strictly larger distance — the first minimal-distance level in iteration
order wins ties. -/
theorem c5_get_nearest_spec (s : Windows.IoctlSupportedBrightnessLevels) (p : ℕ) :
    (s.levels = [] → s.get_nearest p = 0) ∧
    (s.levels ≠ [] → ∃ l1 l2,
      s.levels = l1 ++ s.get_nearest p :: l2 ∧
      (∀ x ∈ l1,
        Windows.brightnessDist p (s.get_nearest p) < Windows.brightnessDist p x) ∧
      (∀ x ∈ s.levels,
        Windows.brightnessDist p (s.get_nearest p) ≤ Windows.brightnessDist p x)) := by
  constructor
  · intro h
    simp [Windows.IoctlSupportedBrightnessLevels.get_nearest, h]
  · intro h
    obtain ⟨y, ys, hys⟩ := List.exists_cons_of_ne_nil h
    obtain ⟨r, l1, l2, hfold, hdecomp, hl1, hl2, _⟩ := foldl_nearestStep_spec p ys y
    have hstep0 : Windows.nearestStep p none y = some y := rfl
    have hgn : s.get_nearest p = r := by
      simp only [Windows.IoctlSupportedBrightnessLevels.get_nearest, hys,
        List.foldl_cons, hstep0, hfold]
    refine ⟨l1, l2, ?_, ?_, ?_⟩
    · rw [hgn, hys]
      exact hdecomp
    · rw [hgn]
      exact hl1
    · intro x hx
      rw [hgn]
      rw [hys, hdecomp] at hx
      rcases List.mem_append.1 hx with hmem | hmem
      · exact (hl1 x hmem).le
      · rcases List.mem_cons.1 hmem with h2 | h2
        · exact h2 ▸ le_refl _
        · exact hl2 x h2

/-- C5 witness: on levels [0, 25, 50, 75, 100] with request 60 the returned
level is a minimal-distance member of the collection. -/
theorem c5_witness : ∃ l1 l2,
    (Windows.IoctlSupportedBrightnessLevels.mk [0, 25, 50, 75, 100]).levels
      = l1 ++ (Windows.IoctlSupportedBrightnessLevels.mk [0, 25, 50, 75, 100]).get_nearest 60
        :: l2 ∧
    (∀ x ∈ l1,
      Windows.brightnessDist 60
          ((Windows.IoctlSupportedBrightnessLevels.mk [0, 25, 50, 75, 100]).get_nearest 60)
        < Windows.brightnessDist 60 x) ∧
    (∀ x ∈ (Windows.IoctlSupportedBrightnessLevels.mk [0, 25, 50, 75, 100]).levels,
      Windows.brightnessDist 60
          ((Windows.IoctlSupportedBrightnessLevels.mk [0, 25, 50, 75, 100]).get_nearest 60)
        ≤ Windows.brightnessDist 60 x) :=
  (c5_get_nearest_spec ⟨[0, 25, 50, 75, 100]⟩ 60).2 (by decide)

/-- C2: when the physical-monitor handles and the active display-device
descriptors obtained for one logical monitor handle differ in count,
discovery emits exactly one `EnumerationMismatch` error element for that
handle — no partial pairing — and processes every other logical handle
exactly as it would otherwise. -/
theorem c2_enumeration_mismatch (device_info_map : Windows.InfoMap)
    (pre post : List Windows.HMonitorEnv) (env : Windows.HMonitorEnv)
    (pms : List ℕ) (dds : List Windows.DISPLAY_DEVICEW)
    (hpm : env.physicalMonitorsResult = .ok pms)
    (hdd : Windows.get_display_devices_from_hmonitor env = .ok dds)
    (hne : dds.length ≠ pms.length) :
    Windows.processMonitor device_info_map env
      = [.error Windows.SysError.enumerationMismatch] ∧
    Windows.brightness_devices (.ok device_info_map) (.ok (pre ++ env :: post))
      = pre.flatMap (Windows.processMonitor device_info_map)
        ++ Except.error Windows.SysError.enumerationMismatch
          :: post.flatMap (Windows.processMonitor device_info_map) := by
  have hproc : Windows.processMonitor device_info_map env
      = [.error Windows.SysError.enumerationMismatch] := by
    simp only [Windows.processMonitor, hpm, hdd]
    rw [if_pos hne]
  refine ⟨hproc, ?_⟩
  simp only [Windows.brightness_devices, List.flatMap_append, List.flatMap_cons, hproc]
  simp

/-- C2 witness: a logical handle with zero physical monitors but one active
display device yields the single mismatch error element. -/
theorem c2_witness :
    Windows.processMonitor (fun _ => none)
      ⟨.ok [], .ok (), [⟨[1], [2], [3], [4], true, .accessDenied⟩]⟩
      = [.error Windows.SysError.enumerationMismatch] ∧
    Windows.brightness_devices (.ok fun _ => none)
      (.ok [⟨.ok [], .ok (), [⟨[1], [2], [3], [4], true, .accessDenied⟩]⟩])
      = [.error Windows.SysError.enumerationMismatch] :=
  c2_enumeration_mismatch (fun _ => none) [] []
    ⟨.ok [], .ok (), [⟨[1], [2], [3], [4], true, .accessDenied⟩]⟩
    [] [⟨[1], [2], [3], [4], true, .accessDenied⟩] rfl rfl (by decide)

/-- C7: a correlated display device that opened successfully but whose device
path has no entry in the device-info map contributes a `DeviceInfoMissing`
error element to discovery, and is never turned into a (by-default-external)
`Brightness` device. -/
theorem c7_device_info_missing (device_info_map : Windows.InfoMap)
    (env : Windows.HMonitorEnv) (pms : List ℕ) (dds : List Windows.DISPLAY_DEVICEW)
    (pm handle : ℕ) (dd : Windows.DISPLAY_DEVICEW)
    (hpm : env.physicalMonitorsResult = .ok pms)
    (hdd : Windows.get_display_devices_from_hmonitor env = .ok dds)
    (hlen : dds.length = pms.length)
    (hmem : (pm, dd) ∈ pms.zip dds)
    (hopen : dd.openResult = .opened handle)
    (hmiss : device_info_map dd.DeviceID = none) :
    Except.error Windows.SysError.deviceInfoMissing
      ∈ Windows.processMonitor device_info_map env ∧
    ∀ b, Windows.pairToDevice device_info_map pm dd ≠ some (.ok b) := by
  have hpair : Windows.pairToDevice device_info_map pm dd
      = some (.error Windows.SysError.deviceInfoMissing) := by
    simp only [Windows.pairToDevice, Windows.get_file_handle_for_display_device, hopen, hmiss]
  constructor
  · simp only [Windows.processMonitor, hpm, hdd,
      if_neg (by omega : ¬dds.length ≠ pms.length)]
    exact List.mem_filterMap.2 ⟨(pm, dd), hmem, hpair⟩
  · intro b
    rw [hpair]
    simp

/-- C7 witness: one logical handle with one physical monitor and one active,
openable display device whose path is absent from an empty device-info map
yields the missing-info error. -/
theorem c7_witness :
    Except.error Windows.SysError.deviceInfoMissing
      ∈ Windows.processMonitor (fun _ => none)
        ⟨.ok [0], .ok (), [⟨[1], [2], [3], [4], true, .opened 7⟩]⟩ ∧
    ∀ b, Windows.pairToDevice (fun _ => none) 0 ⟨[1], [2], [3], [4], true, .opened 7⟩
      ≠ some (.ok b) :=
  c7_device_info_missing (fun _ => none)
    ⟨.ok [0], .ok (), [⟨[1], [2], [3], [4], true, .opened 7⟩]⟩
    [0] [⟨[1], [2], [3], [4], true, .opened 7⟩] 0 7
    ⟨[1], [2], [3], [4], true, .opened 7⟩ rfl rfl rfl (by decide) rfl rfl

/-- C6: the kernel single-scale get computes the integer-truncated
`actual * 100 / max`, defined as 0 when `max == 0` without failing; in
particular (0, 0) yields 0, (50, 100) yields 50, and the inconsistent
reading (200, 100) yields 200 — no clamp on the read path.  The truncated
natural division agrees with the floor of the exact rational value. -/
theorem c6_kernel_scale_percentage :
    Linux.AsyncDeviceImpl.get (.ok 0) (.ok 0) = .ok 0 ∧
    Linux.AsyncDeviceImpl.get (.ok 100) (.ok 50) = .ok 50 ∧
    Linux.AsyncDeviceImpl.get (.ok 100) (.ok 200) = .ok 200 ∧
    (∀ actual : ℕ, Linux.AsyncDeviceImpl.get (.ok 0) (.ok actual) = .ok 0) ∧
    (∀ actual mx : ℕ, mx ≠ 0 →
      Linux.AsyncDeviceImpl.get (.ok mx) (.ok actual) = .ok (actual * 100 / mx) ∧
      actual * 100 / mx = ⌊((actual : ℚ) * 100) / (mx : ℚ)⌋₊) := by
  refine ⟨rfl, rfl, rfl, fun a => rfl, fun a m hm => ⟨?_, ?_⟩⟩
  · simp [Linux.AsyncDeviceImpl.get, hm]
  · rw [show ((a : ℚ) * 100) = ((a * 100 : ℕ) : ℚ) by push_cast; ring,
      Rat.natFloor_natCast_div_natCast]

/-- C6 witness: the truncating division at the concrete reading
actual = 3, max = 7. -/
theorem c6_witness :
    Linux.AsyncDeviceImpl.get (.ok 7) (.ok 3) = .ok (3 * 100 / 7) ∧
    3 * 100 / 7 = ⌊(((3 : ℕ) : ℚ) * 100) / ((7 : ℕ) : ℚ)⌋₊ :=
  c6_kernel_scale_percentage.2.2.2.2 3 7 (by norm_num)

/-- C8: with the max reading and the bus connection succeeding, the
`MethodError` failure of the `SetBrightness` bus call triggers exactly one
direct-file fallback write — of exactly the raw desired value — while every
other bus-call failure is surfaced immediately as a set-brightness error
carrying the device identity and the cause, with no fallback attempt, and a
successful bus call performs no fallback either. -/
theorem c8_set_fallback_policy (device : String)
    (fb : ℕ → Except Linux.SysError Unit) (p mx : ℕ) :
    (∀ i, (Linux.AsyncDeviceImpl.set device
        ⟨.ok mx, .ok (), .error (.methodError i), fb⟩ p).2 = 1) ∧
    (∀ i, Linux.AsyncDeviceImpl.set device
        ⟨.ok mx, .ok (), .error (.methodError i),
          fun v => if v = Linux.desired_value p mx then .ok () else .error (.other 0)⟩ p
      = (.ok (), 1)) ∧
    (∀ e, Linux.AsyncDeviceImpl.set device ⟨.ok mx, .ok (), .error (.other e), fb⟩ p
      = (.error (.settingBrightnessFailed device (.other e)), 0)) ∧
    Linux.AsyncDeviceImpl.set device ⟨.ok mx, .ok (), .ok (), fb⟩ p = (.ok (), 0) := by
  refine ⟨fun i => ?_, fun i => ?_, fun e => rfl, rfl⟩
  · rcases hfb : fb (Linux.desired_value p mx) with e | u <;>
      simp [Linux.AsyncDeviceImpl.set, hfb]
  · simp [Linux.AsyncDeviceImpl.set]

/-- C10: a backlight directory entry whose file name is not valid UTF-8 is
silently skipped during single-registry discovery — it contributes neither a
device item nor an error item, even when both value attributes exist — and
the rest of the sequence is unaffected. -/
theorem c10_non_utf8_entry_skipped (hasActual hasMax : Bool)
    (l1 l2 : List (Except Linux.IoErr Linux.DirEntryData)) :
    Linux.processEntry (.ok ⟨none, hasActual, hasMax⟩) = none ∧
    Linux.brightness_devices (.ok (l1 ++ .ok ⟨none, hasActual, hasMax⟩ :: l2))
      = Linux.brightness_devices (.ok (l1 ++ l2)) := by
  have h : Linux.processEntry (.ok ⟨none, hasActual, hasMax⟩) = none := rfl
  refine ⟨h, ?_⟩
  simp only [Linux.brightness_devices, List.filterMap_append, List.filterMap_cons, h]

